import Mathlib

/-!
# Shallow embedding of the paggo_case backend core

This file embeds the document-ingestion pipeline, the chat turn handler and the
ownership-scoped reads of the `paggo_case` repository (NestJS backend):

* `src/backend/src/ai/ai.service.ts`          — `AiService`
* `src/backend/src/ocr/ocr.service.ts`        — `OcrService`
* `src/backend/src/documents/documents.service.ts`   — `DocumentsService`
* `src/backend/src/documents/documents.controller.ts` — `DocumentsController`
* chat module (`ChatService`, `ChatController`)

External collaborators (Supabase storage, Prisma/Postgres, Gemini, pdf-parse,
tesseract) are modelled as explicit oracles / a pure `Store` state that the
service functions thread through.  Exceptions become `Except`; `undefined`
and nullable columns become `Option`.
-/

namespace Paggo

/-- The `DocumentStatus` enum of the Prisma schema: the `status` column of a
Document (`'PROCESSING' | 'COMPLETED' | 'FAILED'`). -/
inductive DocStatus
  | PROCESSING
  | COMPLETED
  | FAILED
deriving DecidableEq, Repr

/-- Role of a chat message (`'USER' | 'AI'`). -/
inductive Role
  | USER
  | AI
deriving DecidableEq, Repr

/-- A `User` row: identity mirrored from the auth provider. -/
structure User where
  id : String
  email : String
deriving DecidableEq, Repr

/-- A `Document` row.  `extractedText` and `aiSummary` are nullable columns;
`id` and `createdAt` are generated by the store (we model both with a single
counter so creation order is observable). -/
structure Document where
  id : Nat
  title : String
  fileUrl : String
  userId : String
  status : DocStatus
  extractedText : Option String
  aiSummary : Option String
  createdAt : Nat
deriving DecidableEq, Repr

/-- A `ChatMessage` row. -/
structure ChatMessage where
  id : Nat
  documentId : Nat
  role : Role
  content : String
  createdAt : Nat
deriving DecidableEq, Repr

/-- The relational store (Prisma/Postgres) as a pure value.  `nextId` is the
generator for fresh ids / `createdAt` timestamps: every insert uses the
current counter and bumps it, so later inserts have strictly larger
`createdAt`. -/
structure Store where
  users : List User
  documents : List Document
  messages : List ChatMessage
  nextId : Nat
deriving DecidableEq, Repr

/-- Errors surfaced over HTTP.  `notFound` is Nest's `NotFoundException`,
`badRequest` is `BadRequestException`, `payloadTooLarge` is the translation of
multer's `LIMIT_FILE_SIZE`, and `other` is a plain thrown `Error`. -/
inductive ApiError
  | notFound (msg : String)
  | badRequest (msg : String)
  | payloadTooLarge (msg : String)
  | other (msg : String)
deriving DecidableEq, Repr

/-! ## Store primitives (Prisma calls) -/

/-- The `prisma.user.upsert({ where: { id }, update: { email }, create: { id, email } })`. -/
def Store.upsertUser (s : Store) (id email : String) : Store :=
  if s.users.any (fun u => u.id == id) then
    { s with users := s.users.map (fun u => if u.id == id then { u with email := email } else u) }
  else
    { s with users := s.users ++ [{ id := id, email := email }] }

/-- The `prisma.document.create({ data: { title, fileUrl, userId, status } })`:
inserts a fresh row (fresh id, current timestamp) and returns it. -/
def Store.createDocument (s : Store) (title fileUrl userId : String) (status : DocStatus) :
    Document × Store :=
  let d : Document :=
    { id := s.nextId, title := title, fileUrl := fileUrl, userId := userId,
      status := status, extractedText := none, aiSummary := none, createdAt := s.nextId }
  (d, { s with documents := s.documents ++ [d], nextId := s.nextId + 1 })

/-- The `prisma.document.update({ where: { id }, data: ... })`: applies the field
update `f` to the row with the given id and returns the updated row; throws
(Prisma `RecordNotFound`) if no such row exists. -/
def Store.updateDocument (s : Store) (id : Nat) (f : Document → Document) :
    Except String (Document × Store) :=
  match s.documents.find? (fun d => d.id == id) with
  | none => .error "Record to update not found."
  | some d =>
      let updated := f d
      .ok (updated,
        { s with documents := s.documents.map (fun x => if x.id == id then f x else x) })

/-- The `prisma.chatMessage.create({ data: { documentId, role, content } })`. -/
def Store.createMessage (s : Store) (documentId : Nat) (role : Role) (content : String) :
    ChatMessage × Store :=
  let m : ChatMessage :=
    { id := s.nextId, documentId := documentId, role := role, content := content,
      createdAt := s.nextId }
  (m, { s with messages := s.messages ++ [m], nextId := s.nextId + 1 })

/-- Ordering used by `orderBy: { createdAt: 'desc' }` on documents. -/
def byCreatedAtDesc (a b : Document) : Bool := b.createdAt ≤ a.createdAt

/-- Ordering used by `orderBy: { createdAt: 'asc' }` on chat messages. -/
def byCreatedAtAsc (a b : ChatMessage) : Bool := a.createdAt ≤ b.createdAt

/-! ## AiService (`src/backend/src/ai/ai.service.ts`)

The Gemini SDK is modelled by `GeminiEnv`: the credential from the process
environment and the provider call `model.generateContent(prompt)` /
`result.response.text()` collapsed into one oracle that either yields the
model text or throws (network error, bad credential, provider error …). -/

structure GeminiEnv where
  apiKey : Option String
  generateContent : String → Except String String

/-- JS falsiness of `process.env.GEMINI_API_KEY`: missing or empty. -/
def GeminiEnv.keyMissing (env : GeminiEnv) : Bool :=
  match env.apiKey with
  | none => true
  | some k => k == ""

/-- The fixed instructional prompt of `generateSummary`. -/
def summaryPrompt (text : String) : String :=
  "Please provide a very concise summary of the following document (maximum 3-4 sentences). Focus strictly on the most important details (e.g., total amount, due date, main subject). Return ONLY plain text. Do NOT use markdown validation, bold text, or lists. Keep it simple and direct.\n\n"
    ++ text

/-- The chat prompt of `chatAboutDocument`. -/
def chatPrompt (documentText userQuestion : String) : String :=
  "You are a helpful assistant. Here is the context of a document:\n\n"
    ++ documentText
    ++ "\n\nUser Question: "
    ++ userQuestion
    ++ "\n\nInstructions: Answer clearly and concisely. You MUST use Markdown formatting to highlight key information. Use **Bold** for important terms, values, methods (e.g., **Pix**, **Boleto**), amounts, or dates. Use lists or bullet points if explaining multiple items."

/-- Body of the `try` block of `AiService.generateSummary`: early return when
the key is missing, otherwise the provider call (which may throw). -/
def AiService.generateSummaryTry (env : GeminiEnv) (text : String) : Except String String :=
  if env.keyMissing then
    .ok "GEMINI_API_KEY is not set. Cannot generate summary."
  else
    env.generateContent (summaryPrompt text)

/-- The `AiService.generateSummary`: the whole body is wrapped in `try/catch`; the
catch converts any thrown error into the returned string
`` `Error generating summary: ${error.message}` ``. -/
def AiService.generateSummary (env : GeminiEnv) (text : String) : Except String String :=
  match AiService.generateSummaryTry env text with
  | .ok r => .ok r
  | .error e => .ok ("Error generating summary: " ++ e)

/-- Body of the `try` block of `AiService.chatAboutDocument`. -/
def AiService.chatAboutDocumentTry (env : GeminiEnv) (documentText userQuestion : String) :
    Except String String :=
  if env.keyMissing then
    .ok "GEMINI_API_KEY is not set."
  else
    env.generateContent (chatPrompt documentText userQuestion)

/-- The `AiService.chatAboutDocument`: `try/catch` with the catch returning
`` `I cannot answer right now (AI Error): ${error.message}` ``. -/
def AiService.chatAboutDocument (env : GeminiEnv) (documentText userQuestion : String) :
    Except String String :=
  match AiService.chatAboutDocumentTry env documentText userQuestion with
  | .ok r => .ok r
  | .error e => .ok ("I cannot answer right now (AI Error): " ++ e)

/-! ## OcrService (`src/backend/src/ocr/ocr.service.ts`)

`pdf-parse` and the tesseract worker are oracles.  A `Buffer` is a byte
list.  The PDF sniff `dataBuffer.toString('utf8', 0, 4) === '%PDF'` is the
byte comparison with `[0x25, 0x50, 0x44, 0x46]`: those four characters are
ASCII, so the utf8 decode of the first four bytes equals `"%PDF"` exactly
when the bytes are that sequence (shorter buffers decode to a shorter
string, invalid sequences decode to replacement characters). -/

/-- The characters matched by the JS regex class `\s` (ASCII part; pdf-parse
output is text, so these are the ones that occur). -/
def isWsChar (c : Char) : Bool :=
  c == ' ' || c == '\t' || c == '\n' || c == '\r' || c == Char.ofNat 11 || c == Char.ofNat 12

/-- Index of the last `'\n'` in a character list, if any. -/
def lastNewlineIdx : List Char → Option Nat
  | [] => none
  | c :: rest =>
      match lastNewlineIdx rest with
      | some k => some (k + 1)
      | none => if c == '\n' then some 0 else none

/-- One global-replace pass of `/\n\s*\n/g` by `'\n'`, on characters.  At a
`'\n'` the greedy `\s*` runs over the maximal whitespace block; the required
final `'\n'` backtracks to the last newline inside that block; the match is
replaced by a single `'\n'` and scanning resumes after the match (the
replacement itself is not rescanned), exactly the JS `String.replace`
semantics for this pattern. -/
def collapseChars : List Char → List Char
  | [] => []
  | c :: rest =>
      if c == '\n' then
        match lastNewlineIdx (rest.takeWhile isWsChar) with
        | some k => '\n' :: collapseChars (rest.drop (k + 1))
        | none => c :: collapseChars rest
      else c :: collapseChars rest
termination_by l => l.length
decreasing_by
  all_goals simp [List.length_drop]
  omega

/-- The `data.text.replace(/\n\s*\n/g, '\n')`. -/
def collapseBlankLines (s : String) : String :=
  String.mk (collapseChars s.data)

/-- The two extraction engines consumed by `OcrService`: `pdf-parse` applied
to a buffer (yielding `data.text` or throwing) and
`createWorker(lang)`/`worker.recognize` (yielding `data.text` or throwing),
keyed by the language string the worker is created with. -/
structure OcrEngines where
  pdfParse : List Nat → Except String String
  recognize : String → List Nat → Except String String

/-- The 4 magic bytes `%PDF`. -/
def pdfSignature : List Nat := [0x25, 0x50, 0x44, 0x46]

/-- The `const isPdf = dataBuffer.toString('utf8', 0, 4) === '%PDF'`. -/
def isPdfBuffer (b : List Nat) : Bool := b.take 4 == pdfSignature

/-- The normalized error thrown by the catch block of `extractText`. -/
def extractionFailureMessage : String := "Failed to extract text from the file."

/-- The `OcrService.extractText`: sniff the PDF signature, run the corresponding
engine, clean up PDF text; any throw from either engine is caught and
re-thrown as the one generic extraction-failure error. -/
def OcrService.extractText (eng : OcrEngines) (dataBuffer : List Nat) : Except String String :=
  let isPdf := isPdfBuffer dataBuffer
  if isPdf then
    match eng.pdfParse dataBuffer with
    | .ok raw => .ok (collapseBlankLines raw)
    | .error _ => .error extractionFailureMessage
  else
    match eng.recognize "por+eng" dataBuffer with
    | .ok text => .ok text
    | .error _ => .error extractionFailureMessage

/-! ## DocumentsService (`src/backend/src/documents/documents.service.ts`) -/

/-- A multer in-memory file (`Express.Multer.File` with `memoryStorage`):
original filename, declared MIME type and the byte buffer. -/
structure FileUpload where
  originalname : String
  mimetype : String
  buffer : List Nat
deriving DecidableEq, Repr

/-- The effects `DocumentsService.create` performs besides the Prisma store:
`uploadToSupabase` (returns the public url or throws), `OcrService.extractText`
on the buffer, and `AiService.generateSummary` on the extracted text.  They
are passed as oracles so the pipeline can be run against the real
`OcrService.extractText` / `AiService.generateSummary` models or against
arbitrary failure behaviours (infrastructure faults). -/
structure CreateEnv where
  upload : FileUpload → Except String String
  extractText : List Nat → Except String String
  generateSummary : String → Except String String

/-- The catch block of `DocumentsService.create`: mark the in-flight document
`FAILED` (touching no other field), then re-throw the caught error.  If the
`FAILED` update itself throws, that error propagates instead (JS semantics of
a throw inside a catch block). -/
def DocumentsService.markFailedThenRethrow (s : Store) (docId : Nat) (e : String) :
    Except String Document × Store :=
  match s.updateDocument docId (fun d => { d with status := .FAILED }) with
  | .ok (_, s2) => (.error e, s2)
  | .error e2 => (.error e2, s)

/-- The `DocumentsService.create(file, userId, email)`: upload the blob, upsert
the user, insert the `PROCESSING` row, then run extraction and summarization
inline; on success update the row to `COMPLETED` with both derived fields in
one update and return the updated row; on any throw mark the row `FAILED` and
re-throw. -/
def DocumentsService.create (env : CreateEnv) (file : FileUpload) (userId email : String)
    (s : Store) : Except String Document × Store :=
  match env.upload file with
  | .error e => (.error e, s)
  | .ok fileUrl =>
    let s1 := s.upsertUser userId email
    let created := s1.createDocument file.originalname fileUrl userId .PROCESSING
    let document := created.1
    let s2 := created.2
    match env.extractText file.buffer with
    | .error e => DocumentsService.markFailedThenRethrow s2 document.id e
    | .ok text =>
      match env.generateSummary text with
      | .error e => DocumentsService.markFailedThenRethrow s2 document.id e
      | .ok summary =>
        match s2.updateDocument document.id
            (fun d => { d with extractedText := some text, aiSummary := some summary,
                               status := .COMPLETED }) with
        | .ok (updated, s3) => (.ok updated, s3)
        | .error e => DocumentsService.markFailedThenRethrow s2 document.id e

/-- The `DocumentsService.findAll(userId)`: the caller's documents, newest first. -/
def DocumentsService.findAll (s : Store) (userId : String) : List Document :=
  (s.documents.filter (fun d => d.userId == userId)).mergeSort byCreatedAtDesc

/-- The `DocumentsService.findOne(id, userId)`: `findFirst` on `(id, userId)` with
the document's chat messages included ascending by creation time; throws
`NotFoundException('Document not found')` when no row matches. -/
def DocumentsService.findOne (s : Store) (id : Nat) (userId : String) :
    Except ApiError (Document × List ChatMessage) :=
  match s.documents.find? (fun d => d.id == id && d.userId == userId) with
  | none => .error (.notFound "Document not found")
  | some doc =>
      .ok (doc, (s.messages.filter (fun m => m.documentId == id)).mergeSort byCreatedAtAsc)

/-- Outcome of the best-effort blob-deletion phase of `remove`: the document
url may be empty (falsy check), `new URL(...)`/path splitting may fail (caught
and logged), the split may not find a `/documents/` segment (skipped), the
storage call may return an error (logged) or succeed.  Every branch only
logs. -/
inductive BlobOutcome
  | deleted
  | storageError (msg : String)
  | urlParseError (msg : String)
  | noDocumentsSegment
  | emptyUrl
deriving DecidableEq, Repr

/-- Console output of the blob phase (the only observable effect it has). -/
def blobLog : BlobOutcome → List String
  | .deleted => ["[DocumentsService] Deleting file from Storage"]
  | .storageError m => ["[DocumentsService] Failed to delete file from Supabase: " ++ m]
  | .urlParseError m => ["[DocumentsService] Error parsing file URL: " ++ m]
  | .noDocumentsSegment => []
  | .emptyUrl => []

/-- The `DocumentsService.remove(id, userId)`: ownership-checked lookup via
`findOne`, best-effort blob deletion (logged only), then one
`prisma.$transaction` deleting the document's chat messages and the document
row together.  Returns the deleted row (the transaction's result) and the log
of the blob phase. -/
def DocumentsService.remove (blob : BlobOutcome) (s : Store) (id : Nat) (userId : String) :
    (Except ApiError Document × Store) × List String :=
  match DocumentsService.findOne s id userId with
  | .error e => ((.error e, s), [])
  | .ok (doc, _msgs) =>
      let log := blobLog blob
      let s2 : Store :=
        { s with
          messages := s.messages.filter (fun m => m.documentId != doc.id),
          documents := s.documents.filter (fun d => d.id != doc.id) }
      ((.ok doc, s2), log)

/-! ## ChatService (chat module) -/

/-- The `ChatService.sendMessage(documentId, userId, message)`: ownership-checked
`findUnique`, persist the `USER` message, call `chatAboutDocument` with the
document's extracted text (`?? ''`) as context, persist and return the `AI`
message.  `chatAI` is the oracle for the `AiService` call (it may fault at the
infrastructure level, in which case the `USER` row is already persisted and no
`AI` row is ever written). -/
def ChatService.sendMessage (chatAI : String → String → Except String String)
    (s : Store) (documentId : Nat) (userId : String) (message : String) :
    Except ApiError ChatMessage × Store :=
  match s.documents.find? (fun d => d.id == documentId && d.userId == userId) with
  | none => (.error (.notFound "Document not found"), s)
  | some document =>
      let created := s.createMessage documentId .USER message
      let s1 := created.2
      let context := document.extractedText.getD ""
      match chatAI context message with
      | .error e => (.error (.other e), s1)
      | .ok aiResponse =>
          let created2 := s1.createMessage documentId .AI aiResponse
          (.ok created2.1, created2.2)

/-- The `ChatService.getMessages(documentId, userId)`: ownership-checked read of
the document's messages ascending by creation time; `NotFoundException` when
the caller does not own the document (or it does not exist). -/
def ChatService.getMessages (s : Store) (documentId : Nat) (userId : String) :
    Except ApiError (List ChatMessage) :=
  match s.documents.find? (fun d => d.id == documentId && d.userId == userId) with
  | none => .error (.notFound "Document not found or access denied")
  | some _ =>
      .ok ((s.messages.filter (fun m => m.documentId == documentId)).mergeSort byCreatedAtAsc)

/-! ## DocumentsController (`src/backend/src/documents/documents.controller.ts`)

The upload route's validation: multer's `fileFilter` (the regex
`/\/(jpg|jpeg|png|pdf)$/` on the declared MIME type, rejecting with
`BadRequestException('Only image or PDF files are allowed!')`), multer's
`limits.fileSize = 5 * 1024 * 1024` (exceeding it aborts the request with
`LIMIT_FILE_SIZE`), then the handler's own guards for a missing file and a
missing `userId`, and the email fallback.  All of this runs before
`DocumentsService.create`, hence before any side effect. -/

/-- An upload request: the (optional) multipart file and the body fields. -/
structure UploadRequest where
  file : Option FileUpload
  userId : String
  email : String
deriving DecidableEq, Repr

/-- Suffix test on the underlying character lists (the semantics of a
`...$`-anchored regex match, kept kernel-reducible). -/
def strEndsWith (s post : String) : Bool :=
  decide (post.data.length ≤ s.data.length) &&
    (s.data.drop (s.data.length - post.data.length) == post.data)

/-- The `file.mimetype.match(/\/(jpg|jpeg|png|pdf)$/)`: the MIME type ends in one
of the four literal suffixes. -/
def mimetypeAllowed (m : String) : Bool :=
  strEndsWith m "/jpg" || strEndsWith m "/jpeg" || strEndsWith m "/png" || strEndsWith m "/pdf"

/-- The `limits: { fileSize: 5 * 1024 * 1024 }`. -/
def maxFileSize : Nat := 5 * 1024 * 1024

/-- The validation pipeline in front of `DocumentsService.create`: multer's
file filter and size limit, then the handler's `!file` / `!userId` guards and
the email fallback.  Returns the accepted file together with the identity
passed on to `create`. -/
def DocumentsController.validateUpload (req : UploadRequest) :
    Except ApiError (FileUpload × String × String) :=
  match req.file with
  | none => .error (.badRequest "File is required")
  | some f =>
      if !mimetypeAllowed f.mimetype then
        .error (.badRequest "Only image or PDF files are allowed!")
      else if f.buffer.length > maxFileSize then
        .error (.payloadTooLarge "File too large")
      else if req.userId == "" then
        .error (.badRequest "User ID is required")
      else
        .ok (f, req.userId,
          if req.email == "" then "user-" ++ req.userId ++ "@example.com" else req.email)

/-- The `DocumentsController.uploadFile`: validation then the service call; a
validation failure leaves the store untouched (no blob, no User row, no
Document row). -/
def DocumentsController.uploadFile (env : CreateEnv) (req : UploadRequest) (s : Store) :
    Except ApiError Document × Store :=
  match DocumentsController.validateUpload req with
  | .error e => (.error e, s)
  | .ok (f, userId, email) =>
      match DocumentsService.create env f userId email s with
      | (.ok d, s2) => (.ok d, s2)
      | (.error e, s2) => (.error (.other e), s2)

/-- The invariant claimed for `COMPLETED` documents: both derived columns are
populated. -/
def completedInvariant (s : Store) : Prop :=
  ∀ d ∈ s.documents, d.status = DocStatus.COMPLETED →
    d.extractedText.isSome ∧ d.aiSummary.isSome

/-! ## Concrete fixtures (used by witnesses and counterexamples) -/

/-- The empty store. -/
def store0 : Store := { users := [], documents := [], messages := [], nextId := 0 }

/-- A create environment where every external call succeeds. -/
def envOk : CreateEnv :=
  { upload := fun _ => .ok "https://proj.supabase.co/storage/v1/object/public/documents/uploads/f.pdf",
    extractText := fun _ => .ok "hello text",
    generateSummary := fun _ => .ok "the summary" }

/-- A create environment whose extraction step throws (as `OcrService` does
after normalization). -/
def envFailExtract : CreateEnv :=
  { upload := fun _ => .ok "https://proj.supabase.co/storage/v1/object/public/documents/uploads/f.png",
    extractText := fun _ => .error extractionFailureMessage,
    generateSummary := fun _ => .ok "the summary" }

/-- A small PDF upload. -/
def pdfFile : FileUpload :=
  { originalname := "f.pdf", mimetype := "application/pdf", buffer := [0x25, 0x50, 0x44, 0x46] }

/-- The document produced by a fully successful `create envOk pdfFile`. -/
def docC1 : Document :=
  { id := 0, title := "f.pdf",
    fileUrl := "https://proj.supabase.co/storage/v1/object/public/documents/uploads/f.pdf",
    userId := "user-1", status := .COMPLETED,
    extractedText := some "hello text", aiSummary := some "the summary", createdAt := 0 }

/-- A completed document owned by `alice`. -/
def docAlice : Document :=
  { id := 0, title := "t.pdf",
    fileUrl := "https://proj.supabase.co/storage/v1/object/public/documents/uploads/t.pdf",
    userId := "alice", status := .COMPLETED,
    extractedText := some "txt", aiSummary := some "sum", createdAt := 0 }

/-- A chat message on `docAlice`. -/
def msgAlice : ChatMessage :=
  { id := 1, documentId := 0, role := .USER, content := "hi", createdAt := 1 }

/-- A store holding `docAlice` and its one chat message. -/
def storeA : Store :=
  { users := [{ id := "alice", email := "a@example.com" }],
    documents := [docAlice], messages := [msgAlice], nextId := 2 }

/-- The MIME allow-list as the spec words it:
`{image/jpeg, image/png, application/pdf}`. -/
def specMimeAllowList : List String := ["image/jpeg", "image/png", "application/pdf"]

/-- An upload whose declared MIME type is `image/jpg` — not a member of the
spec's allow-list, but accepted by the controller's suffix regex. -/
def jpgFile : FileUpload := { originalname := "a.jpg", mimetype := "image/jpg", buffer := [1, 2, 3] }

/-- The request carrying `jpgFile` (empty email exercises the fallback). -/
def reqJpg : UploadRequest := { file := some jpgFile, userId := "user-1", email := "" }

/-- A 10-byte `text/plain` upload and its request. -/
def txtFile : FileUpload :=
  { originalname := "a.txt", mimetype := "text/plain", buffer := [104, 105, 32, 116, 104, 101, 114, 101, 33, 10] }

/-- Request carrying `txtFile`. -/
def reqTxt : UploadRequest := { file := some txtFile, userId := "user-1", email := "u@example.com" }

/-- The document row produced by uploading `jpgFile` through the controller
against `envOk` and the empty store. -/
def docJpg : Document :=
  { id := 0, title := "a.jpg",
    fileUrl := "https://proj.supabase.co/storage/v1/object/public/documents/uploads/f.pdf",
    userId := "user-1", status := .COMPLETED,
    extractedText := some "hello text", aiSummary := some "the summary", createdAt := 0 }

/-- A Gemini environment with a configured key whose provider call throws. -/
def geminiDown : GeminiEnv :=
  { apiKey := some "key", generateContent := fun _ => .error "model overloaded" }

/-- The create environment wiring `geminiDown` through `AiService`. -/
def envGeminiDown : CreateEnv :=
  { upload := envOk.upload, extractText := envOk.extractText,
    generateSummary := AiService.generateSummary geminiDown }

/-! ## Helper lemmas -/

theorem upsertUser_documents (s : Store) (uid email : String) :
    (s.upsertUser uid email).documents = s.documents := by
  unfold Store.upsertUser
  split <;> rfl

theorem upsertUser_nextId (s : Store) (uid email : String) :
    (s.upsertUser uid email).nextId = s.nextId := by
  unfold Store.upsertUser
  split <;> rfl

theorem markFailedThenRethrow_fst_not_ok (s : Store) (docId : Nat) (e : String) (d : Document) :
    (DocumentsService.markFailedThenRethrow s docId e).1 ≠ Except.ok d := by
  unfold DocumentsService.markFailedThenRethrow
  cases h : s.updateDocument docId (fun d => { d with status := DocStatus.FAILED }) with
  | ok p => cases p with
    | mk d2 s2 => simp
  | error e2 => simp

/-- The `byCreatedAtDesc` is transitive (as a Bool relation). -/
theorem byCreatedAtDesc_trans (a b c : Document) :
    byCreatedAtDesc a b → byCreatedAtDesc b c → byCreatedAtDesc a c := by
  simp only [byCreatedAtDesc, decide_eq_true_eq]
  omega

/-- The `byCreatedAtDesc` is total. -/
theorem byCreatedAtDesc_total (a b : Document) :
    byCreatedAtDesc a b || byCreatedAtDesc b a := by
  simp only [byCreatedAtDesc, Bool.or_eq_true, decide_eq_true_eq]
  omega

/-- If the document id is present, `updateDocument` succeeds and returns `f`
of the row it found. -/
theorem updateDocument_mem_ok (s : Store) (id : Nat) (f : Document → Document)
    (h : ∃ d ∈ s.documents, d.id = id) :
    ∃ d0 s2, s.updateDocument id f = .ok (f d0, s2) := by
  unfold Store.updateDocument
  cases hf : s.documents.find? (fun d => d.id == id) with
  | none =>
      obtain ⟨d, hd, hid⟩ := h
      rw [List.find?_eq_none] at hf
      exact absurd (by simpa using hid) (by simpa using hf d hd)
  | some d0 => exact ⟨d0, _, rfl⟩

/-- The `updateDocument` preserves `completedInvariant` when the field update
itself respects it. -/
theorem completedInvariant_updateDocument (s : Store) (id : Nat) (f : Document → Document)
    (h : completedInvariant s)
    (hf : ∀ d, (f d).status = DocStatus.COMPLETED →
        (f d).extractedText.isSome ∧ (f d).aiSummary.isSome)
    (r : Document) (s2 : Store) (hupd : s.updateDocument id f = .ok (r, s2)) :
    completedInvariant s2 := by
  unfold Store.updateDocument at hupd
  cases hfind : s.documents.find? (fun d => d.id == id) with
  | none => rw [hfind] at hupd; cases hupd
  | some d0 =>
      rw [hfind] at hupd
      cases hupd
      intro d hd hstatus
      simp only [List.mem_map] at hd
      obtain ⟨x, hx, hxd⟩ := hd
      subst hxd
      by_cases hid : (x.id == id) = true
      · rw [if_pos hid] at hstatus ⊢
        exact hf x hstatus
      · rw [if_neg hid] at hstatus ⊢
        exact h x hx hstatus

/-- Inserting the fresh `PROCESSING` row preserves `completedInvariant`. -/
theorem completedInvariant_createDocument (s : Store) (title url uid : String)
    (h : completedInvariant s) :
    completedInvariant (s.createDocument title url uid .PROCESSING).2 := by
  intro d hd hst
  unfold Store.createDocument at hd
  simp only [List.mem_append, List.mem_singleton] at hd
  cases hd with
  | inl hmem => exact h d hmem hst
  | inr heq => subst heq; simp at hst

/-- The catch block (mark `FAILED`) preserves `completedInvariant`. -/
theorem completedInvariant_markFailed (s : Store) (docId : Nat) (e : String)
    (h : completedInvariant s) :
    completedInvariant (DocumentsService.markFailedThenRethrow s docId e).2 := by
  unfold DocumentsService.markFailedThenRethrow
  cases hupd : s.updateDocument docId (fun d => { d with status := DocStatus.FAILED }) with
  | ok p =>
      obtain ⟨r, s2⟩ := p
      dsimp only
      exact completedInvariant_updateDocument s docId _ h (fun d hC => by simp at hC) r s2 hupd
  | error e2 => exact h

/-- The `upsertUser` leaves the documents untouched, hence the invariant. -/
theorem completedInvariant_upsertUser (s : Store) (uid email : String)
    (h : completedInvariant s) :
    completedInvariant (s.upsertUser uid email) := by
  intro d hd hst
  rw [upsertUser_documents] at hd
  exact h d hd hst

/-- The `createMessage` leaves the documents table untouched. -/
theorem createMessage_documents (s : Store) (documentId : Nat) (role : Role) (content : String) :
    ((s.createMessage documentId role content).2).documents = s.documents := rfl

/-- Looking up a freshly appended row by its id finds exactly that row when
no earlier row shares the id. -/
theorem find?_append_fresh (l : List Document) (doc : Document)
    (h : ∀ d ∈ l, d.id ≠ doc.id) :
    (l ++ [doc]).find? (fun d => d.id == doc.id) = some doc := by
  induction l with
  | nil => simp [List.find?]
  | cons a t ih =>
      have ha : (a.id == doc.id) = false := by
        simpa using h a (by simp)
      simp only [List.cons_append, List.find?_cons, ha]
      exact ih (fun d hd => h d (by simp [hd]))

/-- Any successful `updateDocument` returns `f` applied to some row. -/
theorem updateDocument_ok_shape (s : Store) (id : Nat) (f : Document → Document)
    (r : Document) (s2 : Store) (h : s.updateDocument id f = .ok (r, s2)) :
    ∃ d0, r = f d0 := by
  unfold Store.updateDocument at h
  cases hf : s.documents.find? (fun d => d.id == id) with
  | none => rw [hf] at h; cases h
  | some d0 =>
      rw [hf] at h
      refine ⟨d0, ?_⟩
      cases h
      rfl

/-- A fully successful run of `DocumentsService.create`: the returned row is
`COMPLETED` and carries the extracted text and the summary. -/
theorem create_success (env : CreateEnv) (file : FileUpload) (uid email url text summary : String)
    (s : Store)
    (hup : env.upload file = .ok url)
    (hex : env.extractText file.buffer = .ok text)
    (hsum : env.generateSummary text = .ok summary) :
    ∃ d0 s2,
      DocumentsService.create env file uid email s = (.ok d0, s2) ∧
      d0.status = .COMPLETED ∧ d0.extractedText = some text ∧ d0.aiSummary = some summary := by
  unfold DocumentsService.create
  rw [hup]
  dsimp only
  rw [hex]
  dsimp only
  rw [hsum]
  dsimp only
  set s1 := s.upsertUser uid email with hs1
  set created := s1.createDocument file.originalname url uid .PROCESSING with hcr
  have hmem : ∃ d ∈ created.2.documents, d.id = created.1.id := by
    refine ⟨created.1, ?_, rfl⟩
    rw [hcr]
    unfold Store.createDocument
    simp
  obtain ⟨d0, s3, hupd⟩ := updateDocument_mem_ok created.2 created.1.id
    (fun d => { d with extractedText := some text, aiSummary := some summary,
                       status := .COMPLETED }) hmem
  rw [hupd]
  exact ⟨_, s3, rfl, rfl, rfl, rfl⟩

/-! ## Claim theorems -/

/-- **C6.** `OcrService.extractText` runs the PDF-text-layer extractor and
collapses blank-line runs exactly when the first 4 bytes of the buffer are
the literal `%PDF` signature; otherwise it runs the OCR engine created for
the two languages `por+eng`; and a failure of either engine is replaced by
the one generic extraction-failure message, carrying no engine detail. -/
theorem extractText_pdf_sniff_and_normalized_failure (eng : OcrEngines) (b : List Nat) :
    OcrService.extractText eng b =
      if b.take 4 = pdfSignature then
        ((eng.pdfParse b).map collapseBlankLines).mapError (fun _ => extractionFailureMessage)
      else
        (eng.recognize "por+eng" b).mapError (fun _ => extractionFailureMessage) := by
  unfold OcrService.extractText
  by_cases h : b.take 4 = pdfSignature
  · simp only [isPdfBuffer, h, beq_self_eq_true, if_true]
    cases eng.pdfParse b <;> simp [Except.map, Except.mapError]
  · have hb : (b.take 4 == pdfSignature) = false := by
      simpa using h
    simp only [isPdfBuffer, hb, if_neg, h]
    cases eng.recognize "por+eng" b <;> simp [Except.mapError]

/-- **C10.** `DocumentsService.findAll` returns exactly the caller's
documents, ordered by `createdAt` descending (newest first). -/
theorem findAll_only_owner_newest_first (s : Store) (userId : String) :
    (∀ d ∈ DocumentsService.findAll s userId, d.userId = userId) ∧
    (DocumentsService.findAll s userId).Pairwise (fun a b => b.createdAt ≤ a.createdAt) ∧
    (∀ d, d ∈ DocumentsService.findAll s userId ↔ d ∈ s.documents ∧ d.userId = userId) := by
  refine ⟨?_, ?_, ?_⟩
  · intro d hd
    rw [DocumentsService.findAll, List.mem_mergeSort, List.mem_filter] at hd
    simpa using hd.2
  · have h := List.sorted_mergeSort
      byCreatedAtDesc_trans
      (fun a b => byCreatedAtDesc_total a b)
      (s.documents.filter (fun d => d.userId == userId))
    refine h.imp ?_
    intro a b hab
    simpa [byCreatedAtDesc] using hab
  · intro d
    rw [DocumentsService.findAll, List.mem_mergeSort, List.mem_filter]
    simp

/-- **C2.** `AiService.generateSummary` and `AiService.chatAboutDocument`
never raise: whatever the provider or the credential does, they return an
`ok` string.  Consequently, when the ingest pipeline runs with
`AiService.generateSummary` as its summarizer and upload and extraction
succeed, a provider-side summarization failure still ends the document in
`COMPLETED`, with `aiSummary` equal to the error string and `extractedText`
populated. -/
theorem ai_failures_swallowed_completed :
    (∀ (g : GeminiEnv) (text : String), ∃ r, AiService.generateSummary g text = Except.ok r) ∧
    (∀ (g : GeminiEnv) (t q : String), ∃ r, AiService.chatAboutDocument g t q = Except.ok r) ∧
    (∀ (g : GeminiEnv) (env : CreateEnv) (file : FileUpload) (uid email url text m : String)
        (s : Store),
        env.upload file = Except.ok url →
        env.extractText file.buffer = Except.ok text →
        env.generateSummary = AiService.generateSummary g →
        g.keyMissing = false →
        g.generateContent (summaryPrompt text) = Except.error m →
        ∃ d s2,
          DocumentsService.create env file uid email s = (Except.ok d, s2) ∧
          d.status = DocStatus.COMPLETED ∧
          d.extractedText = some text ∧
          d.aiSummary = some ("Error generating summary: " ++ m)) := by
  refine ⟨?_, ?_, ?_⟩
  · intro g text
    unfold AiService.generateSummary
    cases AiService.generateSummaryTry g text with
    | ok r => exact ⟨r, rfl⟩
    | error e => exact ⟨_, rfl⟩
  · intro g t q
    unfold AiService.chatAboutDocument
    cases AiService.chatAboutDocumentTry g t q with
    | ok r => exact ⟨r, rfl⟩
    | error e => exact ⟨_, rfl⟩
  · intro g env file uid email url text m s hup hex henv hkey hgen
    have hsum : env.generateSummary text = Except.ok ("Error generating summary: " ++ m) := by
      rw [henv]
      unfold AiService.generateSummary AiService.generateSummaryTry
      rw [hkey]
      simp [hgen]
    exact create_success env file uid email url text _ s hup hex hsum

/-- **C1 (counterexample).** A fully successful ingest call does *not*
return the `PROCESSING` row: at a concrete valid upload the synchronous
return value of `DocumentsService.create` is the row with status
`COMPLETED`. -/
theorem create_return_not_processing_counterexample :
    (DocumentsService.create envOk pdfFile "user-1" "u@example.com" store0).1 =
      Except.ok docC1 ∧
    docC1.status ≠ DocStatus.PROCESSING := by
  constructor
  · rfl
  · decide

/-- **C1 (amended).** The pipeline inserts the Document row with status
`PROCESSING` (visible in the store) before extraction and summarization run,
but the value returned by a *successful* ingest call is the post-processing
row, whose status is `COMPLETED`, not `PROCESSING`. -/
theorem create_row_processing_then_returns_completed :
    (∀ (s : Store) (title url uid : String),
        (s.createDocument title url uid .PROCESSING).1.status = DocStatus.PROCESSING ∧
        (s.createDocument title url uid .PROCESSING).1 ∈
          (s.createDocument title url uid .PROCESSING).2.documents) ∧
    (∀ (env : CreateEnv) (file : FileUpload) (uid email : String) (s : Store) (d : Document),
        (DocumentsService.create env file uid email s).1 = Except.ok d →
        d.status = DocStatus.COMPLETED) := by
  constructor
  · intro s title url uid
    constructor
    · rfl
    · unfold Store.createDocument
      simp
  · intro env file uid email s d h
    unfold DocumentsService.create at h
    cases hup : env.upload file with
    | error e => rw [hup] at h; cases h
    | ok url =>
        rw [hup] at h
        dsimp only at h
        cases hex : env.extractText file.buffer with
        | error e =>
            rw [hex] at h
            exact absurd h (markFailedThenRethrow_fst_not_ok _ _ _ _)
        | ok text =>
            rw [hex] at h
            dsimp only at h
            cases hsum : env.generateSummary text with
            | error e =>
                rw [hsum] at h
                exact absurd h (markFailedThenRethrow_fst_not_ok _ _ _ _)
            | ok summary =>
                rw [hsum] at h
                dsimp only at h
                split at h
                · next updated s3 hupd =>
                    obtain ⟨d0, hd0⟩ := updateDocument_ok_shape _ _ _ _ _ hupd
                    cases h
                    rw [hd0]
                · next e hupd =>
                    exact absurd h (markFailedThenRethrow_fst_not_ok _ _ _ _)

/-- Witness for C1 (amended): concrete creation yields a `PROCESSING` row,
and the concrete successful ingest returns a `COMPLETED` document. -/
theorem create_row_processing_then_returns_completed_witness :
    (store0.createDocument "t" "u" "user-1" .PROCESSING).1.status = DocStatus.PROCESSING ∧
    docC1.status = DocStatus.COMPLETED :=
  ⟨(create_row_processing_then_returns_completed.1 store0 "t" "u" "user-1").1,
   create_row_processing_then_returns_completed.2 envOk pdfFile "user-1" "u@example.com" store0
     docC1 rfl⟩

/-- Witness for C2: with the provider down, ingest still completes and the
summary column holds the error string. -/
theorem ai_failures_swallowed_completed_witness :
    ∃ d s2,
      DocumentsService.create envGeminiDown pdfFile "user-1" "u@example.com" store0 =
        (Except.ok d, s2) ∧
      d.status = DocStatus.COMPLETED ∧
      d.extractedText = some "hello text" ∧
      d.aiSummary = some ("Error generating summary: " ++ "model overloaded") :=
  ai_failures_swallowed_completed.2.2 geminiDown envGeminiDown pdfFile "user-1" "u@example.com"
    "https://proj.supabase.co/storage/v1/object/public/documents/uploads/f.pdf"
    "hello text" "model overloaded" store0 rfl rfl rfl rfl rfl

/-- **C3.** The only transition to `COMPLETED` is the single update writing
`extractedText` and `aiSummary` together with the status, so every store
operation of the pipeline preserves the invariant that a `COMPLETED` document
has both fields populated; and a document returned by a successful ingest has
both fields populated. -/
theorem completed_documents_fully_populated (env : CreateEnv) (file : FileUpload)
    (uid email : String) (s : Store) (h : completedInvariant s) :
    completedInvariant (DocumentsService.create env file uid email s).2 ∧
    (∀ (chatAI : String → String → Except String String) (documentId : Nat) (u msg : String),
        completedInvariant (ChatService.sendMessage chatAI s documentId u msg).2) ∧
    (∀ (blob : BlobOutcome) (id : Nat) (u : String),
        completedInvariant ((DocumentsService.remove blob s id u).1).2) ∧
    (∀ d, (DocumentsService.create env file uid email s).1 = Except.ok d →
        d.extractedText.isSome ∧ d.aiSummary.isSome) := by
  refine ⟨?_, ?_, ?_, ?_⟩
  · unfold DocumentsService.create
    cases hup : env.upload file with
    | error e => exact h
    | ok url =>
        dsimp only
        have h2 : completedInvariant
            ((s.upsertUser uid email).createDocument file.originalname url uid .PROCESSING).2 :=
          completedInvariant_createDocument _ _ _ _ (completedInvariant_upsertUser s uid email h)
        cases hex : env.extractText file.buffer with
        | error e => exact completedInvariant_markFailed _ _ _ h2
        | ok text =>
            dsimp only
            cases hsum : env.generateSummary text with
            | error e => exact completedInvariant_markFailed _ _ _ h2
            | ok summary =>
                dsimp only
                split
                · next updated s3 hupd =>
                    exact completedInvariant_updateDocument _ _ _ h2
                      (fun d hC => by simp) _ _ hupd
                · next e hupd => exact completedInvariant_markFailed _ _ _ h2
  · intro chatAI documentId u msg
    unfold ChatService.sendMessage
    cases hfind : s.documents.find? (fun d => d.id == documentId && d.userId == u) with
    | none => exact h
    | some doc =>
        dsimp only
        cases chatAI (doc.extractedText.getD "") msg with
        | error e =>
            intro d hd hst
            rw [createMessage_documents] at hd
            exact h d hd hst
        | ok aiResponse =>
            intro d hd hst
            rw [createMessage_documents, createMessage_documents] at hd
            exact h d hd hst
  · intro blob id u
    unfold DocumentsService.remove
    cases hf : DocumentsService.findOne s id u with
    | error e => exact h
    | ok p =>
        obtain ⟨doc, msgs⟩ := p
        dsimp only
        intro d hd hst
        simp only [List.mem_filter] at hd
        exact h d hd.1 hst
  · intro d hok
    unfold DocumentsService.create at hok
    cases hup : env.upload file with
    | error e => rw [hup] at hok; cases hok
    | ok url =>
        rw [hup] at hok
        dsimp only at hok
        cases hex : env.extractText file.buffer with
        | error e =>
            rw [hex] at hok
            exact absurd hok (markFailedThenRethrow_fst_not_ok _ _ _ _)
        | ok text =>
            rw [hex] at hok
            dsimp only at hok
            cases hsum : env.generateSummary text with
            | error e =>
                rw [hsum] at hok
                exact absurd hok (markFailedThenRethrow_fst_not_ok _ _ _ _)
            | ok summary =>
                rw [hsum] at hok
                dsimp only at hok
                split at hok
                · next updated s3 hupd =>
                    obtain ⟨d0, hd0⟩ := updateDocument_ok_shape _ _ _ _ _ hupd
                    cases hok
                    rw [hd0]
                    simp
                · next e hupd =>
                    exact absurd hok (markFailedThenRethrow_fst_not_ok _ _ _ _)

/-- Witness for C3 at a concrete store satisfying the invariant. -/
theorem completed_documents_fully_populated_witness :
    completedInvariant (DocumentsService.create envOk pdfFile "user-1" "u@example.com" storeA).2 :=
  (completed_documents_fully_populated envOk pdfFile "user-1" "u@example.com" storeA
    (by unfold completedInvariant; decide)).1

/-- **C4.** Ownership isolation: a document owned by some user is never
returned by `findAll` / `findOne` / `getMessages` / `remove` under a
different identity `b`, and a non-owned id is indistinguishable from a
nonexistent one (`findOne` reports the same not-found either way).  `hids`
says document ids are unique in the store (a database key constraint). -/
theorem ownership_isolation (s : Store) (d : Document) (b : String)
    (hd : d ∈ s.documents)
    (hids : ∀ d2 ∈ s.documents, d2.id = d.id → d2 = d)
    (hb : b ≠ d.userId) :
    d ∉ DocumentsService.findAll s b ∧
    DocumentsService.findOne s d.id b = .error (.notFound "Document not found") ∧
    ChatService.getMessages s d.id b =
      .error (.notFound "Document not found or access denied") ∧
    (∀ blob, DocumentsService.remove blob s d.id b =
      ((.error (.notFound "Document not found"), s), [])) ∧
    (∀ id2, (∀ d2 ∈ s.documents, d2.id ≠ id2) →
        DocumentsService.findOne s id2 b = .error (.notFound "Document not found")) := by
  have hnone : s.documents.find? (fun x => x.id == d.id && x.userId == b) = none := by
    rw [List.find?_eq_none]
    intro a ha hpa
    simp only [Bool.and_eq_true, beq_iff_eq] at hpa
    have haeq : a = d := hids a ha hpa.1
    subst haeq
    exact hb hpa.2.symm
  have hfindOne : DocumentsService.findOne s d.id b =
      .error (.notFound "Document not found") := by
    unfold DocumentsService.findOne
    rw [hnone]
  refine ⟨?_, hfindOne, ?_, ?_, ?_⟩
  · intro hmem
    rw [DocumentsService.findAll, List.mem_mergeSort, List.mem_filter] at hmem
    have : d.userId = b := by simpa using hmem.2
    exact hb this.symm
  · unfold ChatService.getMessages
    rw [hnone]
  · intro blob
    unfold DocumentsService.remove
    rw [hfindOne]
  · intro id2 hid2
    have hnone2 : s.documents.find? (fun x => x.id == id2 && x.userId == b) = none := by
      rw [List.find?_eq_none]
      intro a ha hpa
      simp only [Bool.and_eq_true, beq_iff_eq] at hpa
      exact hid2 a ha hpa.1
    unfold DocumentsService.findOne
    rw [hnone2]

/-- Witness for C4: `bob` cannot see, list or remove `alice`'s document. -/
theorem ownership_isolation_witness :
    DocumentsService.findOne storeA 0 "bob" = .error (.notFound "Document not found") ∧
    docAlice ∉ DocumentsService.findAll storeA "bob" ∧
    ChatService.getMessages storeA 0 "bob" =
      .error (.notFound "Document not found or access denied") ∧
    DocumentsService.remove .deleted storeA 0 "bob" =
      ((.error (.notFound "Document not found"), storeA), []) :=
  let t := ownership_isolation storeA docAlice "bob" (by decide) (by decide) (by decide)
  ⟨t.2.1, t.1, t.2.2.1, t.2.2.2.1 .deleted⟩

/-- **C5 (counterexample).** The upload validation is *not* "reject exactly
when the MIME type is outside {image/jpeg, image/png, application/pdf}": the
declared type `image/jpg` is outside that allow-list, yet the controller's
suffix regex accepts it and a Document row is created. -/
theorem mime_allowlist_counterexample :
    jpgFile.mimetype ∉ specMimeAllowList ∧
    DocumentsController.validateUpload reqJpg =
      .ok (jpgFile, "user-1", "user-user-1@example.com") ∧
    (DocumentsController.uploadFile envOk reqJpg store0).1 = .ok docJpg ∧
    ((DocumentsController.uploadFile envOk reqJpg store0).2).documents = [docJpg] := by
  refine ⟨by decide, rfl, rfl, rfl⟩

/-- **C5 (amended).** Ingest rejects before any side effect (store
untouched) exactly when the file is missing, the `userId` is empty, the file
exceeds 5 MB, or the MIME type fails the controller's *suffix* check (it does
not end in `/jpg`, `/jpeg`, `/png` or `/pdf` — a strict superset of the
spec's allow-list); in particular a `text/plain` upload is rejected with no
row created. -/
theorem upload_validation_exact (env : CreateEnv) (req : UploadRequest) (s : Store) :
    ((∃ e, DocumentsController.validateUpload req = .error e) ↔
      (req.file = none ∨ req.userId = "" ∨
        (∃ f, req.file = some f ∧
          (mimetypeAllowed f.mimetype = false ∨ f.buffer.length > maxFileSize)))) ∧
    (∀ e, DocumentsController.validateUpload req = .error e →
        DocumentsController.uploadFile env req s = (.error e, s)) ∧
    (∀ f, req.file = some f → f.mimetype = "text/plain" →
        DocumentsController.uploadFile env req s =
          (.error (.badRequest "Only image or PDF files are allowed!"), s)) := by
  have hpush : ∀ e, DocumentsController.validateUpload req = .error e →
      DocumentsController.uploadFile env req s = (.error e, s) := by
    intro e he
    unfold DocumentsController.uploadFile
    rw [he]
  refine ⟨?_, hpush, ?_⟩
  · cases hf : req.file with
    | none => simp [DocumentsController.validateUpload, hf]
    | some f =>
        cases hm : mimetypeAllowed f.mimetype with
        | false => simp [DocumentsController.validateUpload, hf, hm]
        | true =>
            by_cases hsz : f.buffer.length > maxFileSize
            · simp [DocumentsController.validateUpload, hf, hm, hsz]
            · by_cases hu : req.userId = ""
              · simp [DocumentsController.validateUpload, hf, hm, hsz, hu]
              · simp [DocumentsController.validateUpload, hf, hm, hsz, hu]
  · intro f hf hmime
    have hm : mimetypeAllowed f.mimetype = false := by rw [hmime]; decide
    apply hpush
    unfold DocumentsController.validateUpload
    rw [hf]
    simp [hm]

/-- Witness for C5 (amended): the 10-byte `text/plain` upload is rejected
with the store unchanged. -/
theorem upload_validation_exact_witness :
    DocumentsController.uploadFile envOk reqTxt store0 =
      (.error (.badRequest "Only image or PDF files are allowed!"), store0) :=
  (upload_validation_exact envOk reqTxt store0).2.2 txtFile rfl rfl

/-- **C7.** When extraction (or an infrastructure-level summarization fault)
throws inside the pipeline, `create` updates the in-flight row setting *only*
`status = FAILED` — the update function touches no other field and no other
row — and then re-raises the same error to its caller, after the status
write (the returned store already contains it).  `hwf` says existing ids are
below the generator (a database key constraint). -/
theorem create_failure_frame (env : CreateEnv) (file : FileUpload) (uid email : String)
    (s : Store) (e : String)
    (hwf : ∀ d ∈ s.documents, d.id < s.nextId)
    (hup : ∃ url, env.upload file = .ok url)
    (hfail : env.extractText file.buffer = .error e ∨
      ∃ t, env.extractText file.buffer = .ok t ∧ env.generateSummary t = .error e) :
    ∃ url doc s2,
      env.upload file = .ok url ∧
      (s.upsertUser uid email).createDocument file.originalname url uid .PROCESSING =
        (doc, s2) ∧
      doc.status = .PROCESSING ∧ doc.extractedText = none ∧ doc.aiSummary = none ∧
      DocumentsService.create env file uid email s =
        (.error e,
          { s2 with documents := s2.documents.map (fun d =>
                        if d.id == doc.id then { d with status := DocStatus.FAILED }
                        else d) }) := by
  obtain ⟨url, hupok⟩ := hup
  set s1 := s.upsertUser uid email with hs1
  set doc : Document :=
    { id := s1.nextId, title := file.originalname, fileUrl := url, userId := uid,
      status := .PROCESSING, extractedText := none, aiSummary := none,
      createdAt := s1.nextId } with hdoc
  set s2 : Store :=
    { s1 with documents := s1.documents ++ [doc], nextId := s1.nextId + 1 } with hs2
  have hcd : s1.createDocument file.originalname url uid .PROCESSING = (doc, s2) := rfl
  have hwf1 : ∀ d ∈ s1.documents, d.id < s1.nextId := by
    intro d hd
    rw [hs1, upsertUser_documents] at hd
    rw [hs1, upsertUser_nextId]
    exact hwf d hd
  have hfind : s2.documents.find? (fun d => d.id == doc.id) = some doc := by
    rw [hs2]
    refine find?_append_fresh _ _ ?_
    intro d hd
    have hlt := hwf1 d hd
    rw [hdoc]
    dsimp only
    omega
  have hmf : DocumentsService.markFailedThenRethrow s2 doc.id e =
      (.error e,
        { s2 with documents := s2.documents.map (fun d =>
                      if d.id == doc.id then { d with status := DocStatus.FAILED }
                      else d) }) := by
    unfold DocumentsService.markFailedThenRethrow Store.updateDocument
    rw [hfind]
  refine ⟨url, doc, s2, hupok, hcd, rfl, rfl, rfl, ?_⟩
  unfold DocumentsService.create
  rw [hupok]
  dsimp only
  rw [hcd]
  dsimp only
  cases hfail with
  | inl hex =>
      rw [hex]
      exact hmf
  | inr h2 =>
      obtain ⟨t, hex, hsum⟩ := h2
      rw [hex]
      dsimp only
      rw [hsum]
      exact hmf

/-- Witness for C7: with the extraction oracle failing, the concrete run
re-raises the extraction error and only flips the created row to `FAILED`. -/
theorem create_failure_frame_witness :
    ∃ url doc s2,
      envFailExtract.upload pdfFile = .ok url ∧
      (store0.upsertUser "user-1" "u@example.com").createDocument pdfFile.originalname url
        "user-1" .PROCESSING = (doc, s2) ∧
      doc.status = .PROCESSING ∧ doc.extractedText = none ∧ doc.aiSummary = none ∧
      DocumentsService.create envFailExtract pdfFile "user-1" "u@example.com" store0 =
        (.error extractionFailureMessage,
          { s2 with documents := s2.documents.map (fun d =>
                        if d.id == doc.id then { d with status := DocStatus.FAILED }
                        else d) }) :=
  create_failure_frame envFailExtract pdfFile "user-1" "u@example.com" store0
    extractionFailureMessage (by decide)
    ⟨"https://proj.supabase.co/storage/v1/object/public/documents/uploads/f.png", rfl⟩
    (Or.inl rfl)

/-- **C8.** For an owned document, `remove`'s blob phase is best-effort: no
outcome of it (including storage errors and URL parse errors) changes the
returned value or the resulting store — it only logs.  The chat messages and
the document row are then deleted together in the one transactional step, and
afterwards `findOne` and `getMessages` for that id report not-found for every
user. -/
theorem remove_besteffort_blob_atomic_rows (s : Store) (id : Nat) (userId : String)
    (doc : Document) (msgs : List ChatMessage)
    (hown : DocumentsService.findOne s id userId = .ok (doc, msgs)) :
    (∀ b1 b2 : BlobOutcome,
        (DocumentsService.remove b1 s id userId).1 =
          (DocumentsService.remove b2 s id userId).1) ∧
    (∀ b : BlobOutcome, ∃ s2 : Store,
        DocumentsService.remove b s id userId = ((.ok doc, s2), blobLog b) ∧
        (∀ m ∈ s2.messages, m.documentId ≠ doc.id) ∧
        (∀ d2 ∈ s2.documents, d2.id ≠ doc.id) ∧
        (∀ uid2,
          DocumentsService.findOne s2 id uid2 = .error (.notFound "Document not found") ∧
          ChatService.getMessages s2 id uid2 =
            .error (.notFound "Document not found or access denied"))) := by
  have hdocid : doc.id = id := by
    unfold DocumentsService.findOne at hown
    cases hfind : s.documents.find? (fun d => d.id == id && d.userId == userId) with
    | none => rw [hfind] at hown; cases hown
    | some d0 =>
        rw [hfind] at hown
        have hpred := List.find?_some hfind
        simp only [Bool.and_eq_true, beq_iff_eq] at hpred
        cases hown
        exact hpred.1
  constructor
  · intro b1 b2
    unfold DocumentsService.remove
    rw [hown]
  · intro b
    refine ⟨{ s with
        messages := s.messages.filter (fun m => m.documentId != doc.id),
        documents := s.documents.filter (fun d => d.id != doc.id) }, ?_, ?_, ?_, ?_⟩
    · unfold DocumentsService.remove
      rw [hown]
    · intro m hm
      simp only [List.mem_filter, bne_iff_ne, ne_eq] at hm
      exact hm.2
    · intro d2 hd2
      simp only [List.mem_filter, bne_iff_ne, ne_eq] at hd2
      exact hd2.2
    · intro uid2
      have hnone : (s.documents.filter (fun d => d.id != doc.id)).find?
          (fun d => d.id == id && d.userId == uid2) = none := by
        rw [List.find?_eq_none]
        intro a ha hpa
        simp only [List.mem_filter, bne_iff_ne, ne_eq] at ha
        simp only [Bool.and_eq_true, beq_iff_eq] at hpa
        exact ha.2 (hdocid ▸ hpa.1)
      constructor
      · unfold DocumentsService.findOne
        rw [hnone]
      · unfold ChatService.getMessages
        rw [hnone]

/-- Witness for C8: removing `alice`'s document with a failing storage delete
still succeeds and leaves no trace of the rows. -/
theorem remove_besteffort_blob_atomic_rows_witness :
    ∃ s2 : Store,
      DocumentsService.remove (.storageError "bucket unavailable") storeA 0 "alice" =
        ((.ok docAlice, s2), blobLog (.storageError "bucket unavailable")) ∧
      (∀ m ∈ s2.messages, m.documentId ≠ docAlice.id) ∧
      (∀ d2 ∈ s2.documents, d2.id ≠ docAlice.id) ∧
      (∀ uid2,
        DocumentsService.findOne s2 0 uid2 = .error (.notFound "Document not found") ∧
        ChatService.getMessages s2 0 uid2 =
          .error (.notFound "Document not found or access denied")) :=
  (remove_besteffort_blob_atomic_rows storeA 0 "alice" docAlice [msgAlice]
    (by simp [DocumentsService.findOne, storeA, docAlice, msgAlice, List.find?])).2
    (.storageError "bucket unavailable")

/-- **C9.** A chat turn on an owned document persists the `USER` message
first; when the AI step succeeds, exactly the `USER` and then the `AI`
message are appended, with the `USER` message strictly earlier in creation
order; when the AI step faults, only the `USER` message is persisted and no
`AI` reply is ever written. -/
theorem sendMessage_user_first_unanswered_on_fault
    (chatAI : String → String → Except String String) (s : Store) (documentId : Nat)
    (userId message : String) (document : Document)
    (hfind : s.documents.find? (fun d => d.id == documentId && d.userId == userId) =
      some document) :
    (∀ r, chatAI (document.extractedText.getD "") message = .ok r →
      ∃ userMsg aiMsg s2,
        ChatService.sendMessage chatAI s documentId userId message = (.ok aiMsg, s2) ∧
        s2.messages = s.messages ++ [userMsg, aiMsg] ∧
        userMsg.role = .USER ∧ userMsg.content = message ∧
        aiMsg.role = .AI ∧ aiMsg.content = r ∧
        userMsg.createdAt < aiMsg.createdAt) ∧
    (∀ e, chatAI (document.extractedText.getD "") message = .error e →
      ∃ userMsg,
        ChatService.sendMessage chatAI s documentId userId message =
          (.error (.other e),
            { s with messages := s.messages ++ [userMsg], nextId := s.nextId + 1 }) ∧
        userMsg.role = .USER ∧ userMsg.content = message ∧
        (∀ m ∈ ({ s with messages := s.messages ++ [userMsg],
                         nextId := s.nextId + 1 } : Store).messages,
          m.role = .AI → m ∈ s.messages)) := by
  constructor
  · intro r hr
    refine ⟨{ id := s.nextId, documentId := documentId, role := .USER, content := message,
              createdAt := s.nextId },
            { id := s.nextId + 1, documentId := documentId, role := .AI, content := r,
              createdAt := s.nextId + 1 },
            { s with
              messages := (s.messages ++
                  [{ id := s.nextId, documentId := documentId, role := .USER,
                     content := message, createdAt := s.nextId }]) ++
                [{ id := s.nextId + 1, documentId := documentId, role := .AI,
                   content := r, createdAt := s.nextId + 1 }],
              nextId := s.nextId + 1 + 1 },
            ?_, ?_, rfl, rfl, rfl, rfl, by simp⟩
    · unfold ChatService.sendMessage
      rw [hfind]
      dsimp only
      rw [hr]
      rfl
    · show (s.messages ++ [_]) ++ [_] = _
      simp
  · intro e he
    refine ⟨{ id := s.nextId, documentId := documentId, role := .USER, content := message,
              createdAt := s.nextId }, ?_, rfl, rfl, ?_⟩
    · unfold ChatService.sendMessage
      rw [hfind]
      dsimp only
      rw [he]
      rfl
    · intro m hm hrole
      simp only [List.mem_append, List.mem_singleton] at hm
      cases hm with
      | inl h2 => exact h2
      | inr h2 => subst h2; simp at hrole

/-- Witness for C9: a successful turn on `alice`'s document appends the USER
message and then the AI message, in that creation order. -/
theorem sendMessage_user_first_unanswered_on_fault_witness :
    ∃ userMsg aiMsg s2,
      ChatService.sendMessage (fun _ _ => .ok "answer") storeA 0 "alice" "what is due?" =
        (.ok aiMsg, s2) ∧
      s2.messages = storeA.messages ++ [userMsg, aiMsg] ∧
      userMsg.role = .USER ∧ userMsg.content = "what is due?" ∧
      aiMsg.role = .AI ∧ aiMsg.content = "answer" ∧
      userMsg.createdAt < aiMsg.createdAt :=
  (sendMessage_user_first_unanswered_on_fault (fun _ _ => .ok "answer") storeA 0 "alice"
      "what is due?" docAlice rfl).1 "answer" rfl

/-- Witness for C10 at a concrete store: `docAlice` is listed for `alice`,
and membership is as characterized. -/
theorem findAll_only_owner_newest_first_witness :
    docAlice.userId = "alice" ∧ docAlice ∈ DocumentsService.findAll storeA "alice" :=
  ⟨(findAll_only_owner_newest_first storeA "alice").1 docAlice
      (((findAll_only_owner_newest_first storeA "alice").2.2 docAlice).mpr (by decide)),
   ((findAll_only_owner_newest_first storeA "alice").2.2 docAlice).mpr (by decide)⟩

end Paggo
